import Mathlib

/-!
Verification of the zone dwell-tracking and mask-compositing pipeline of the
tmpl-application repository.

The Python sources are shallowly embedded:

* `DepthTracker` (src/apps/depth_tracking/depth_tracker.py) — per-zone dwell
  counters driven by a presence vector; wall-clock times are modelled as `ℚ`.
  Python dictionaries keyed by small integers are modelled as insertion-ordered
  association lists (`alookup` / `ains` / `aerase` below), matching dict
  lookup, assignment and `del`.
* `MaskManager` (src/apps/generator/core/mask_manager.py) — sequence-frame
  storage, frame lookup with clamping, and layered compositing.  Bitmaps are
  modelled as total functions from pixel coordinates to channel values.
* `TMPLMonitor` (src/apps/generator/core/tmpl_monitor.py) — orchestration with
  change dedup; the possibility that writing an output file raises is modelled
  by a `WriteTry` oracle and an `Except` result.
-/

/-! ### Association lists (Python `dict` with integer keys) -/

def alookup {α : Type} (k : Nat) : List (Nat × α) → Option α
  | [] => none
  | (k', v) :: rest => if k' = k then some v else alookup k rest

/-- Python `d[k] = v`: overwrite in place if the key exists, else append. -/
def ains {α : Type} (k : Nat) (v : α) : List (Nat × α) → List (Nat × α)
  | [] => [(k, v)]
  | (k', v') :: rest => if k' = k then (k, v) :: rest else (k', v') :: ains k v rest

/-- Python `del d[k]`. -/
def aerase {α : Type} (k : Nat) : List (Nat × α) → List (Nat × α)
  | [] => []
  | (k', v') :: rest => if k' = k then rest else (k', v') :: aerase k rest

/-! ### DepthTracker (src/apps/depth_tracking/depth_tracker.py) -/

/-- State of `DepthTracker`: threshold/interval configuration, the two timer
dictionaries, the ten position counters, and the logging state (`last_log_state`
plus `log_lines`, the lines appended so far to `tmpl.log`). -/
structure DepthTracker where
  threshold_time : ℚ
  increment_interval : ℚ
  position_timers : List (Nat × ℚ)
  last_increment_time : List (Nat × ℚ)
  position_counters : List Nat
  last_log_state : Option (List Nat)
  log_lines : List (List Nat)

/-- `DepthTracker.__init__`: threshold 3.0 s, increment interval 0.5 s
(`Config.COUNTER_INCREMENT_INTERVAL`), ten zero counters, empty log. -/
def DepthTracker.init : DepthTracker :=
  { threshold_time := 3
    increment_interval := 1/2
    position_timers := []
    last_increment_time := []
    position_counters := List.replicate 10 0
    last_log_state := none
    log_lines := [] }

/-- `DepthTracker.log_state`: append the counter vector to the log only when it
differs from the last emitted vector. -/
def DepthTracker.log_state (t : DepthTracker) : DepthTracker :=
  if t.last_log_state = some t.position_counters then t
  else
    { t with
        log_lines := t.log_lines ++ [t.position_counters]
        last_log_state := some t.position_counters }

/-- One iteration of the `for i in range(10)` loop body of
`DepthTracker.update`.  The lookup of `last_increment_time[i]` uses a default
of `0`; in the Python source both dictionaries always hold exactly the same
keys (entries are inserted and deleted together), so the default is never
consulted on states the program reaches. -/
def DepthTracker.updateAt (t : DepthTracker) (cp : List Nat) (now : ℚ) (i : Nat) :
    DepthTracker :=
  if i < cp.length then
    if cp.getD i 0 = 1 then
      match alookup i t.position_timers with
      | none =>
        { t with
            position_timers := ains i now t.position_timers
            last_increment_time := ains i now t.last_increment_time }
      | some started =>
        if t.threshold_time ≤ now - started ∧
            t.increment_interval ≤ now - (alookup i t.last_increment_time).getD 0 then
          ({ t with
              position_counters :=
                t.position_counters.set i (t.position_counters.getD i 0 + 1)
              last_increment_time := ains i now t.last_increment_time }).log_state
        else t
    else
      match alookup i t.position_timers with
      | none => t
      | some _ =>
        { t with
            position_timers := aerase i t.position_timers
            last_increment_time := aerase i t.last_increment_time }
  else t

/-- `DepthTracker.update(column_presence)` evaluated at wall-clock time `now`. -/
def DepthTracker.update (t : DepthTracker) (cp : List Nat) (now : ℚ) : DepthTracker :=
  (List.range 10).foldl (fun s i => s.updateAt cp now i) t

/-- Modelled from the spec: `reset()` — "zero all counters, clear all timers —
invoked externally on scene switch" (spec §4.1).  No `reset` method exists in
the repository's `DepthTracker` source; only this operation is taken from the
spec's words. -/
def DepthTracker.reset (t : DepthTracker) : DepthTracker :=
  { t with
      position_counters := List.replicate 10 0
      position_timers := []
      last_increment_time := [] }

/-! ### Bitmaps and the mask configuration -/

/-- Pixel coordinates (row, column) of a single-channel image. -/
abbrev Pix : Type := Nat × Nat

/-- A single-channel 8-bit image, modelled as a total function on pixels. -/
abbrev Bitmap : Type := Pix → Nat

/-- `cv2.threshold(img, 127, 255, cv2.THRESH_BINARY)`. -/
def binarize (b : Bitmap) : Bitmap := fun p => if 127 < b p then 255 else 0

/-- `MaskConfig` (shape as consumed by `MaskManager` / `TMPLMonitor`):
a name, the configured `gray_values`, and the `gray_value → output_index`
mapping `gray_indexes`. -/
structure MaskConfig where
  name : String
  gray_values : List Nat
  gray_indexes : List (Nat × Nat)

/-! ### MaskManager (src/apps/generator/core/mask_manager.py) -/

/-- The mutable fields of `MaskManager` that the compositing pipeline uses:
`mask_cache` (static masks), the nested `sequence_frames` and
`sequence_max_frames` dictionaries, and the output file counter
`results_index`. -/
structure MaskManager where
  config : MaskConfig
  mask_cache : List (Nat × Bitmap)
  sequence_frames : List (Nat × List (Nat × List (Nat × Bitmap)))
  sequence_max_frames : List (Nat × List (Nat × Nat))
  results_index : Nat

/-- `MaskManager.__init__`: empty caches, `results_index = 0`. -/
def MaskManager.init (cfg : MaskConfig) : MaskManager :=
  { config := cfg
    mask_cache := []
    sequence_frames := []
    sequence_max_frames := []
    results_index := 0 }

/-- One sequence directory on disk: its parsed numeric suffix and the frame
files inside it, each with its parsed frame number and the result of
`ImageProcessor.load_and_resize_image` (`none` = the load failed). -/
structure SeqDir where
  seq_num : Nat
  frame_files : List (Nat × Option Bitmap)

/-- The per-panorama directory tree as seen by `load_sequence_frames`:
for each `gray_value` whose directory exists, the sequence directories found
by the (sorted) glob. -/
abbrev Disk : Type := List (Nat × List SeqDir)

/-- Body of the inner `for frame_path in frame_files` loop: skip a file whose
load failed, otherwise store the binarized frame, update the running
`max_frame` and count it. -/
def lfStep (acc : List (Nat × Bitmap) × Nat × Nat) (f : Nat × Option Bitmap) :
    List (Nat × Bitmap) × Nat × Nat :=
  match f.2 with
  | none => acc
  | some img => (ains f.1 (binarize img) acc.1, max acc.2.1 f.1, acc.2.2 + 1)

/-- The inner `for frame_path in frame_files` loop: accumulate the loaded,
binarized frames, the running `max_frame`, and the `loaded_frames` count. -/
def loadFrames (files : List (Nat × Option Bitmap)) :
    List (Nat × Bitmap) × Nat × Nat :=
  files.foldl lfStep ([], 0, 0)

/-- The `for seq_dir in seq_dirs` loop for one gray value: build the
`sequence_frames[gray_value]` and `sequence_max_frames[gray_value]`
dictionaries (the latter only gains an entry when `loaded_frames > 0`) and
accumulate the total frame count. -/
def lgStep (acc : List (Nat × List (Nat × Bitmap)) × List (Nat × Nat) × Nat)
    (sd : SeqDir) : List (Nat × List (Nat × Bitmap)) × List (Nat × Nat) × Nat :=
  let r := loadFrames sd.frame_files
  (ains sd.seq_num r.1 acc.1,
   if 0 < r.2.2 then ains sd.seq_num r.2.1 acc.2.1 else acc.2.1,
   acc.2.2 + r.2.2)

def loadGray (seqDirs : List SeqDir) :
    List (Nat × List (Nat × Bitmap)) × List (Nat × Nat) × Nat :=
  seqDirs.foldl lgStep ([], [], 0)

/-- `MaskManager.load_sequence_frames`: for every configured gray value whose
directory exists on disk, populate both nested dictionaries; returns the
updated manager and the `total_frames` return value. -/
def loadStep (disk : Disk) (acc : MaskManager × Nat) (g : Nat) : MaskManager × Nat :=
  match alookup g disk with
  | none => acc
  | some seqDirs =>
    let r := loadGray seqDirs
    ({ acc.1 with
         sequence_frames := ains g r.1 acc.1.sequence_frames
         sequence_max_frames := ains g r.2.1 acc.1.sequence_max_frames },
     acc.2 + r.2.2)

def MaskManager.load_sequence_frames (m : MaskManager) (disk : Disk) :
    MaskManager × Nat :=
  m.config.gray_values.foldl (loadStep disk) (m, 0)

/-- `MaskManager.get_frame`.  The Python source reads
`self.sequence_max_frames[gray_value].get(seq_num, 0)`; by construction of
`load_sequence_frames` the keys of `sequence_max_frames` and of
`sequence_frames` coincide, so the `getD []` below is never consulted on
states the program reaches. -/
def MaskManager.get_frame (m : MaskManager) (gray seq frame : Nat) : Option Bitmap :=
  match alookup gray m.sequence_frames with
  | none => none
  | some seqFrames =>
    match alookup seq seqFrames with
    | none => none
    | some frames =>
      let max_frame := (alookup seq ((alookup gray m.sequence_max_frames).getD [])).getD 0
      if max_frame = 0 then none
      else alookup (min frame max_frame) frames

/-! ### Compositing (`MaskManager.process_and_save`) -/

/-- The per-gray-value state passed to `process_and_save`:
`gray_value → list of (sequence_number, frame_number)`. -/
abbrev StateMap : Type := List (Nat × List (Nat × Nat))

/-- Stable insertion of `x` into a list sorted descending by `key`
(elements with an equal key keep their relative order). -/
def insertDescBy (key : Nat → Nat) (x : Nat) : List Nat → List Nat
  | [] => [x]
  | y :: ys => if key y < key x then x :: y :: ys else y :: insertDescBy key x ys

/-- Stable descending sort by `key`, as produced by Python's
`sorted(xs, key=key, reverse=True)` (Python's sort is stable, and
`reverse=True` keeps the original order of equal-key elements). -/
def sortDescBy (key : Nat → Nat) (xs : List Nat) : List Nat :=
  xs.foldl (fun acc x => insertDescBy key x acc) []

/-- The processing order of `process_and_save`:
`sorted(gray_values, key=lambda x: gray_indexes.get(x, 0), reverse=True)`. -/
def sortedGrayValues (cfg : MaskConfig) : List Nat :=
  sortDescBy (fun g => (alookup g cfg.gray_indexes).getD 0) cfg.gray_values

/-- The `active_frames` gathered for one gray value: the static mask from
`mask_cache` (if any) followed by every sequence frame that `get_frame`
resolves for the `(seq_num, frame_num)` pairs listed in the state. -/
def activeFrames (m : MaskManager) (state : StateMap) (gray : Nat) : List Bitmap :=
  (match alookup gray m.mask_cache with
   | some b => [b]
   | none => []) ++
  (match alookup gray state with
   | some reqs => reqs.filterMap (fun sf => m.get_frame gray sf.1 sf.2)
   | none => [])

/-- `np.maximum.reduce` over a nonempty list of frames (a single frame is
used directly). -/
def combineFrames : List Bitmap → Bitmap
  | [] => fun _ => 0
  | b :: bs => bs.foldl (fun acc c => fun p => max (acc p) (c p)) b

/-- The body of the `for gray_value in sorted_gray_values` loop: if any frames
are active for `gray` and `gray` has an output index, overwrite the output
with that index wherever the combined mask is nonzero. -/
def paintOne (m : MaskManager) (state : StateMap) (acc : Bitmap) (gray : Nat) : Bitmap :=
  let active := activeFrames m state gray
  if active.isEmpty then acc
  else
    let combined := combineFrames active
    match alookup gray m.config.gray_indexes with
    | none => acc
    | some idx => fun p => if 0 < combined p then idx else acc p

/-- The final mask built by `process_and_save`: background sentinel 255,
then each gray value painted in the sorted processing order. -/
def MaskManager.composite (m : MaskManager) (state : StateMap) : Bitmap :=
  (sortedGrayValues m.config).foldl (paintOne m state) (fun _ => 255)

/-- Whether writing the output file with the given index succeeds
(`cv2.imwrite`; a failure is modelled as a raised exception). -/
abbrev WriteTry : Type := Nat → Bool

/-- `MaskManager.process_and_save`: `None` on an empty state, otherwise build
the composite, write it to the file named by `results_index + 1` and advance
`results_index`.  An `.error ()` result models a raised write exception; the
manager is unchanged in that case (the Python `self.results_index`
assignment sits after the `cv2.imwrite` call). -/
def MaskManager.process_and_save (m : MaskManager) (wr : WriteTry) (state : StateMap) :
    Except Unit (Option (Nat × Bitmap) × MaskManager) :=
  if state.isEmpty then .ok (none, m)
  else
    let final := m.composite state
    if wr (m.results_index + 1) then
      .ok (some (m.results_index + 1, final), { m with results_index := m.results_index + 1 })
    else .error ()

/-! ### TMPLMonitor (src/apps/generator/core/tmpl_monitor.py) -/

/-- The fields of `TMPLMonitor` that `process_state` uses. -/
structure TMPLMonitor where
  previous_state : Option (List Nat)
  mask_managers : List (String × MaskManager)

/-- `[(seq_num, frame_num) for seq_num, frame_num in enumerate(state) if frame_num > 0]`. -/
def activeSequencesOf (state : List Nat) : List (Nat × Nat) :=
  state.enum.filter (fun p => decide (0 < p.2))

/-- `config_state = {gray_value: active_sequences for gray_value in gray_values}`
(built by the `for gray_value in manager.config.gray_values` loop). -/
def configStateFor (m : MaskManager) (active : List (Nat × Nat)) : StateMap :=
  m.config.gray_values.foldl (fun acc g => ains g active acc) []

/-- The `for name, manager in self.mask_managers.items()` loop.  On a raised
exception the managers processed so far keep their (in-place) mutations and
the remaining ones are untouched; the partially updated list is carried in
the `.error` payload. -/
def processManagers (wr : WriteTry) (active : List (Nat × Nat)) :
    List (String × MaskManager) →
      Except (List (String × MaskManager)) (List (String × MaskManager))
  | [] => .ok []
  | (n, mgr) :: rest =>
    match mgr.process_and_save wr (configStateFor mgr active) with
    | .error _ => .error ((n, mgr) :: rest)
    | .ok r =>
      match processManagers wr active rest with
      | .error ms => .error ((n, r.2) :: ms)
      | .ok ms => .ok ((n, r.2) :: ms)

/-- `TMPLMonitor.process_state`: no-op on an empty or all-zero state or on a
state equal to the previous one; otherwise process every manager and record
the state.  On a raised exception (`.error`) the new manager list is kept but
`previous_state` is NOT updated (its assignment is the last statement of the
`try` block). -/
def TMPLMonitor.process_state (t : TMPLMonitor) (wr : WriteTry) (state : List Nat) :
    Except TMPLMonitor TMPLMonitor :=
  if state = [] ∨ ∀ v ∈ state, v = 0 then .ok t
  else if t.previous_state = some state then .ok t
  else
    match processManagers wr (activeSequencesOf state) t.mask_managers with
    | .ok ms => .ok { previous_state := some state, mask_managers := ms }
    | .error ms => .error { t with mask_managers := ms }

/-! ### Derived definitions used to state the verified properties -/

/-- Whether the layer `gray` paints the pixel `p` in `process_and_save`:
it gathers at least one active frame, it has an output index configured, and
the combined frame is nonzero at `p`. -/
def paintsB (m : MaskManager) (state : StateMap) (gray : Nat) (p : Pix) : Bool :=
  !(activeFrames m state gray).isEmpty &&
  (alookup gray m.config.gray_indexes).isSome &&
  decide (0 < combineFrames (activeFrames m state gray) p)

/-- Logging-state invariant of `DepthTracker`: no two consecutive emitted log
lines are equal, and `last_log_state` records the last emitted line. -/
def goodLog (t : DepthTracker) : Prop :=
  List.Chain' (fun a b => a ≠ b) t.log_lines ∧
  (t.last_log_state = none → t.log_lines = []) ∧
  (∀ x, t.last_log_state = some x → t.log_lines.getLast? = some x)

/-- A sequence of `update(column_presence)` calls, each with its presence
vector and wall-clock timestamp. -/
def runCalls (t : DepthTracker) (calls : List (List Nat × ℚ)) : DepthTracker :=
  calls.foldl (fun s c => s.update c.1 c.2) t

/-- A run of single-zone `update` calls: each element is the timestamp and
whether zone 0 is present at that call. -/
def runSched (t : DepthTracker) (sched : List (ℚ × Bool)) : DepthTracker :=
  sched.foldl (fun s e => s.update [if e.2 then 1 else 0] e.1) t

/-- `spansOKb start sched` holds when, threading the start time of the current
contiguous active span (`start`), every call made while the zone is active
happens strictly less than 3 seconds (the threshold) after that span began:
i.e. every contiguous active span is shorter than `threshold_time`. -/
def spansOKb : Option ℚ → List (ℚ × Bool) → Bool
  | _, [] => true
  | none, e :: rest => spansOKb (if e.2 then some e.1 else none) rest
  | some s, e :: rest =>
    if e.2 then decide (e.1 - s < 3) && spansOKb (some s) rest
    else spansOKb none rest

/-- Update timestamps `0, 0.5, 1.0, ..., m/2`: one `update` call per
increment interval (0.5 s). -/
def schedTimes (m : Nat) : List ℚ :=
  (List.range (m + 1)).map (fun j => (j : ℚ) / 2)

/-- Run `update` with zone 0 continuously present at each of the given times. -/
def runActive (t : DepthTracker) (times : List ℚ) : DepthTracker :=
  times.foldl (fun s τ => s.update [1] τ) t

/-- Number of frame bitmaps held for one gray value. -/
def heldFramesGray (fm : List (Nat × List (Nat × Bitmap))) : Nat :=
  (fm.map (fun s => s.2.length)).sum

/-- Total number of sequence-frame bitmaps held in memory by a manager. -/
def MaskManager.heldFrames (m : MaskManager) : Nat :=
  (m.sequence_frames.map (fun g => heldFramesGray g.2)).sum

/-- Invariant relating `sequence_max_frames[g]` to `sequence_frames[g]`:
every recorded max frame points (when nonzero) at a frame that is held. -/
def seqInv (mm : List (Nat × Nat)) (fm : List (Nat × List (Nat × Bitmap))) : Prop :=
  ∀ seq mf, alookup seq mm = some mf →
    ∃ fr, alookup seq fm = some fr ∧ (mf = 0 ∨ (alookup mf fr).isSome = true)

/-- `seqInv` for every gray value of a manager. -/
def storeInv (M : MaskManager) : Prop :=
  ∀ g mm, alookup g M.sequence_max_frames = some mm →
    ∃ fm, alookup g M.sequence_frames = some fm ∧ seqInv mm fm

/-! ### Concrete test fixtures -/

/-- An all-white source image. -/
def whiteBM : Bitmap := fun _ => 255

/-- Two layers: gray value 100 with output index 10, gray value 50 with
output index 5. -/
def cfgC1 : MaskConfig :=
  { name := "depth_generated", gray_values := [100, 50], gray_indexes := [(100, 10), (50, 5)] }

/-- One single-frame sequence per layer, both all-white (so both layers paint
every pixel). -/
def diskC1 : Disk :=
  [(100, [{ seq_num := 1, frame_files := [(1, some whiteBM)] }]),
   (50, [{ seq_num := 1, frame_files := [(1, some whiteBM)] }])]

def mC1 : MaskManager := ((MaskManager.init cfgC1).load_sequence_frames diskC1).1

/-- Sequence 1, frame 1 requested for both layers. -/
def stateC1 : StateMap := [(100, [(1, 1)]), (50, [(1, 1)])]

/-- One layer (gray value 7) whose sequence 1 has frames 1 and 3 on disk but
no frame 2 (a gap). -/
def cfgC2 : MaskConfig :=
  { name := "depth_generated", gray_values := [7], gray_indexes := [(7, 1)] }

def diskC2 : Disk :=
  [(7, [{ seq_num := 1, frame_files := [(1, some whiteBM), (3, some whiteBM)] }])]

def mC2 : MaskManager := ((MaskManager.init cfgC2).load_sequence_frames diskC2).1

/-- Single-layer configuration used for the cache-boundedness analysis. -/
def cfg9 : MaskConfig :=
  { name := "depth_generated", gray_values := [1], gray_indexes := [(1, 1)] }

/-- `n` loadable frame files numbered `1..n`. -/
def frameList (n : Nat) : List (Nat × Option Bitmap) :=
  (List.range n).map (fun i => (i + 1, some whiteBM))

/-- A disk holding one sequence with `n` frames. -/
def mkDisk (n : Nat) : Disk :=
  [(1, [{ seq_num := 1, frame_files := frameList n }])]

/-- Zone 5 became active at time 0 (reached by one `update` call). -/
def s5a : DepthTracker := DepthTracker.init.update [0, 0, 0, 0, 0, 1] 0

/-- A follow-up `update` at time 10 whose presence vector is shorter than
index 5 (the empty vector). -/
def s5b : DepthTracker := s5a.update [] 10

/-- A manager with one configured gray value and nothing loaded. -/
def mgrW : MaskManager :=
  MaskManager.init { name := "m", gray_values := [100], gray_indexes := [(100, 10)] }

/-- A fresh monitor owning `mgrW`. -/
def tC : TMPLMonitor := { previous_state := none, mask_managers := [("m", mgrW)] }

/-- A writer whose every file write fails (raises). -/
def wrFail : WriteTry := fun _ => false

/-- A writer whose every file write succeeds. -/
def wrOk : WriteTry := fun _ => true
theorem alookup_ains_self {α : Type} (k : Nat) (v : α) (l : List (Nat × α)) :
    alookup k (ains k v l) = some v := by
  induction l with
  | nil => simp [ains, alookup]
  | cons hd tl ih =>
    by_cases h : hd.1 = k
    · simp [ains, alookup, h]
    · simp [ains, alookup, h, ih]

theorem alookup_ains_ne {α : Type} {k k' : Nat} (h : k' ≠ k) (v : α) (l : List (Nat × α)) :
    alookup k (ains k' v l) = alookup k l := by
  induction l with
  | nil => simp [ains, alookup, h]
  | cons hd tl ih =>
    by_cases h2 : hd.1 = k'
    · simp [ains, alookup, h2, h]
    · by_cases h3 : hd.1 = k <;> simp [ains, alookup, h2, h3, ih, Ne.symm h]

theorem alookup_aerase_ne {α : Type} {k k' : Nat} (h : k' ≠ k) (l : List (Nat × α)) :
    alookup k (aerase k' l) = alookup k l := by
  induction l with
  | nil => simp [aerase]
  | cons hd tl ih =>
    by_cases h2 : hd.1 = k'
    · have h4 : ¬ hd.1 = k := by rw [h2]; exact h
      simp [aerase, alookup, h2, h4, h]
    · by_cases h3 : hd.1 = k <;> simp [aerase, alookup, h2, h3, ih, Ne.symm h]

theorem alookup_mem {α : Type} {k : Nat} {v : α} :
    ∀ {l : List (Nat × α)}, alookup k l = some v → (k, v) ∈ l := by
  intro l
  induction l with
  | nil => intro h; simp [alookup] at h
  | cons hd tl ih =>
    intro h
    by_cases h2 : hd.1 = k
    · simp [alookup, h2] at h
      have : hd = (k, v) := by
        cases hd
        rw [Prod.mk.injEq]
        exact ⟨h2, h⟩
      rw [← this]
      exact List.mem_cons_self _ _
    · simp [alookup, h2] at h
      exact List.mem_cons_of_mem _ (ih h)

theorem ains_length_of_alookup_none {α : Type} {k : Nat} (v : α) :
    ∀ {l : List (Nat × α)}, alookup k l = none → (ains k v l).length = l.length + 1 := by
  intro l
  induction l with
  | nil => intro _; simp [ains]
  | cons hd tl ih =>
    intro h
    by_cases h2 : hd.1 = k
    · simp [alookup, h2] at h
    · simp [alookup, h2] at h
      simp [ains, h2, ih h]


/-! ### List helpers -/

theorem alookup_ains_isSome {α : Type} {k : Nat} (k' : Nat) (v' : α) {l : List (Nat × α)}
    (h : (alookup k l).isSome = true) : (alookup k (ains k' v' l)).isSome = true := by
  by_cases h2 : k' = k
  · subst h2; rw [alookup_ains_self]; rfl
  · rw [alookup_ains_ne h2]; exact h

theorem list_set_oob (v : Nat) : ∀ (l : List Nat) (i : Nat), l.length ≤ i → l.set i v = l := by
  intro l
  induction l with
  | nil => intro i _; rfl
  | cons hd tl ih =>
    intro i h
    cases i with
    | zero => simp at h
    | succ j =>
      simp only [List.length_cons] at h
      simp [List.set, ih j (by omega)]

theorem getD_set_eq (v : Nat) : ∀ (l : List Nat) (i : Nat), i < l.length →
    (l.set i v).getD i 0 = v := by
  intro l
  induction l with
  | nil => intro i h; simp at h
  | cons hd tl ih =>
    intro i h
    cases i with
    | zero => rfl
    | succ j =>
      simp only [List.length_cons] at h
      simpa [List.set] using ih j (by omega)

theorem getD_set_ne (v : Nat) : ∀ (l : List Nat) {i j : Nat}, j ≠ i →
    (l.set j v).getD i 0 = l.getD i 0 := by
  intro l
  induction l with
  | nil => intro i j _; rfl
  | cons hd tl ih =>
    intro i j h
    cases j with
    | zero =>
      cases i with
      | zero => exact absurd rfl h
      | succ i' => rfl
    | succ j' =>
      cases i with
      | zero => rfl
      | succ i' => simpa [List.set] using ih (by omega : j' ≠ i')

theorem getD_set_succ_mono (l : List Nat) (i j : Nat) :
    l.getD i 0 ≤ (l.set j (l.getD j 0 + 1)).getD i 0 := by
  by_cases h : j = i
  · subst h
    by_cases h2 : j < l.length
    · rw [getD_set_eq _ _ _ h2]; omega
    · rw [list_set_oob _ _ _ (by omega)]
  · rw [getD_set_ne _ _ h]

/-! ### DepthTracker structural lemmas -/

theorem log_state_timers (t : DepthTracker) :
    t.log_state.position_timers = t.position_timers := by
  unfold DepthTracker.log_state; split <;> rfl

theorem log_state_last_inc (t : DepthTracker) :
    t.log_state.last_increment_time = t.last_increment_time := by
  unfold DepthTracker.log_state; split <;> rfl

theorem log_state_counters (t : DepthTracker) :
    t.log_state.position_counters = t.position_counters := by
  unfold DepthTracker.log_state; split <;> rfl

theorem log_state_threshold (t : DepthTracker) :
    t.log_state.threshold_time = t.threshold_time := by
  unfold DepthTracker.log_state; split <;> rfl

theorem log_state_interval (t : DepthTracker) :
    t.log_state.increment_interval = t.increment_interval := by
  unfold DepthTracker.log_state; split <;> rfl

theorem updateAt_counters_mono (t : DepthTracker) (cp : List Nat) (now : ℚ) (i j : Nat) :
    t.position_counters.getD i 0 ≤ (t.updateAt cp now j).position_counters.getD i 0 := by
  unfold DepthTracker.updateAt
  split
  · split
    · split
      · exact Nat.le_refl _
      · split
        · rw [log_state_counters]
          exact getD_set_succ_mono _ _ _
        · exact Nat.le_refl _
    · split
      · exact Nat.le_refl _
      · exact Nat.le_refl _
  · exact Nat.le_refl _

theorem updateAt_counters_inactive (t : DepthTracker) (cp : List Nat) (now : ℚ) {i : Nat}
    (j : Nat) (h : cp.getD i 0 ≠ 1) :
    (t.updateAt cp now j).position_counters.getD i 0 = t.position_counters.getD i 0 := by
  unfold DepthTracker.updateAt
  split
  · split
    · rename_i hj hcp
      have hji : j ≠ i := fun he => h (he ▸ hcp)
      split
      · rfl
      · split
        · rw [log_state_counters]
          exact getD_set_ne _ _ hji
        · rfl
    · split
      · rfl
      · rfl
  · rfl

theorem updateAt_uncovered (t : DepthTracker) (cp : List Nat) (now : ℚ) {i : Nat}
    (j : Nat) (h : cp.length ≤ i) :
    alookup i (t.updateAt cp now j).position_timers = alookup i t.position_timers ∧
    alookup i (t.updateAt cp now j).last_increment_time = alookup i t.last_increment_time ∧
    (t.updateAt cp now j).position_counters.getD i 0 = t.position_counters.getD i 0 := by
  unfold DepthTracker.updateAt
  split
  · rename_i hj
    have hji : j ≠ i := by omega
    split
    · split
      · exact ⟨alookup_ains_ne hji _ _, alookup_ains_ne hji _ _, rfl⟩
      · split
        · rw [log_state_timers, log_state_last_inc, log_state_counters]
          exact ⟨rfl, alookup_ains_ne hji _ _, getD_set_ne _ _ hji⟩
        · exact ⟨rfl, rfl, rfl⟩
    · split
      · exact ⟨rfl, rfl, rfl⟩
      · exact ⟨alookup_aerase_ne hji _, alookup_aerase_ne hji _, rfl⟩
  · exact ⟨rfl, rfl, rfl⟩

theorem run_counters_mono (cp : List Nat) (now : ℚ) (i : Nat) :
    ∀ (js : List Nat) (t : DepthTracker),
      t.position_counters.getD i 0 ≤
        (js.foldl (fun s j => s.updateAt cp now j) t).position_counters.getD i 0 := by
  intro js
  induction js with
  | nil => intro t; exact Nat.le_refl _
  | cons j rest ih =>
    intro t
    exact Nat.le_trans (updateAt_counters_mono t cp now i j) (ih _)

theorem run_counters_inactive (cp : List Nat) (now : ℚ) {i : Nat} (h : cp.getD i 0 ≠ 1) :
    ∀ (js : List Nat) (t : DepthTracker),
      (js.foldl (fun s j => s.updateAt cp now j) t).position_counters.getD i 0 =
        t.position_counters.getD i 0 := by
  intro js
  induction js with
  | nil => intro t; rfl
  | cons j rest ih =>
    intro t
    rw [List.foldl_cons, ih _, updateAt_counters_inactive t cp now j h]

theorem run_uncovered (cp : List Nat) (now : ℚ) {i : Nat} (h : cp.length ≤ i) :
    ∀ (js : List Nat) (t : DepthTracker),
      alookup i ((js.foldl (fun s j => s.updateAt cp now j) t)).position_timers =
          alookup i t.position_timers ∧
      alookup i ((js.foldl (fun s j => s.updateAt cp now j) t)).last_increment_time =
          alookup i t.last_increment_time ∧
      ((js.foldl (fun s j => s.updateAt cp now j) t)).position_counters.getD i 0 =
          t.position_counters.getD i 0 := by
  intro js
  induction js with
  | nil => intro t; exact ⟨rfl, rfl, rfl⟩
  | cons j rest ih =>
    intro t
    obtain ⟨h1, h2, h3⟩ := updateAt_uncovered t cp now j h
    obtain ⟨h4, h5, h6⟩ := ih (t.updateAt cp now j)
    exact ⟨h4.trans h1, h5.trans h2, h6.trans h3⟩

/-! ### C6: counter persistence -/

/-- C6 — Counter persistence: every zone's counter is monotonically
non-decreasing across every `update` call; a zone whose presence entry is not 1
(inactive, or not covered by the vector) keeps its counter unchanged; and the
(spec-modelled) `reset` is the operation that zeroes all counters and clears
all timers. -/
theorem counter_persistence :
    (∀ (t : DepthTracker) (cp : List Nat) (now : ℚ) (i : Nat),
        t.position_counters.getD i 0 ≤ (t.update cp now).position_counters.getD i 0) ∧
    (∀ (t : DepthTracker) (cp : List Nat) (now : ℚ) (i : Nat), cp.getD i 0 ≠ 1 →
        (t.update cp now).position_counters.getD i 0 = t.position_counters.getD i 0) ∧
    (∀ t : DepthTracker,
        t.reset.position_counters = List.replicate 10 0 ∧
        t.reset.position_timers = [] ∧ t.reset.last_increment_time = []) := by
  refine ⟨?_, ?_, ?_⟩
  · intro t cp now i
    exact run_counters_mono cp now i (List.range 10) t
  · intro t cp now i h
    exact run_counters_inactive cp now h (List.range 10) t
  · intro t
    exact ⟨rfl, rfl, rfl⟩

/-- C6 witness: the inactive-preservation part applied at a concrete input. -/
theorem counter_persistence_witness :
    (([0] : List Nat).getD 0 0 ≠ 1) ∧
    (DepthTracker.init.update [0] 0).position_counters.getD 0 0 =
      DepthTracker.init.position_counters.getD 0 0 :=
  ⟨by decide, counter_persistence.2.1 DepthTracker.init [0] 0 0 (by decide)⟩

/-! ### C5: short presence vectors -/

/-- C5 counterexample: zone 5 is armed at time 0; an `update` whose presence
vector does not cover index 5 leaves the dwell timer in place (the claim says
it is cleared, i.e. `position_timers = []`), and a later full-length `update`
therefore increments immediately instead of re-arming. -/
theorem short_vector_counterexample :
    s5a.position_timers = [(5, 0)] ∧
    s5b.position_timers = [(5, 0)] ∧
    ¬ s5b.position_timers = [] ∧
    (s5b.update [0, 0, 0, 0, 0, 1] 10).position_counters.getD 5 0 = 1 := by
  with_unfolding_all decide

/-- C5 (amended) — Short presence vectors: `update` is total for every vector
length, but a zone index not covered by the vector is skipped entirely: its
dwell timer, last-increment time and counter are all left untouched (it is NOT
treated as inactive — in particular its timer is not cleared). -/
theorem short_vector_skips (t : DepthTracker) (cp : List Nat) (now : ℚ) (i : Nat)
    (h : cp.length ≤ i) :
    alookup i (t.update cp now).position_timers = alookup i t.position_timers ∧
    alookup i (t.update cp now).last_increment_time = alookup i t.last_increment_time ∧
    (t.update cp now).position_counters.getD i 0 = t.position_counters.getD i 0 :=
  run_uncovered cp now h (List.range 10) t

/-- C5 witness: the amended statement at a concrete input. -/
theorem short_vector_skips_witness :
    (([] : List Nat).length ≤ 5) ∧
    (alookup 5 (s5a.update [] 10).position_timers = alookup 5 s5a.position_timers ∧
     alookup 5 (s5a.update [] 10).last_increment_time = alookup 5 s5a.last_increment_time ∧
     (s5a.update [] 10).position_counters.getD 5 0 = s5a.position_counters.getD 5 0) :=
  ⟨by decide, short_vector_skips s5a [] 10 5 (by decide)⟩

/-! ### C7: dedup logging -/

theorem goodLog_log_state (t : DepthTracker) (h : goodLog t) : goodLog t.log_state := by
  obtain ⟨hchain, hnone, hsome⟩ := h
  unfold DepthTracker.log_state
  split
  · exact ⟨hchain, hnone, hsome⟩
  · rename_i hne
    refine ⟨?_, ?_, ?_⟩
    · rw [List.chain'_append]
      refine ⟨hchain, List.chain'_singleton _, ?_⟩
      intro x hx y hy
      simp only [List.head?_cons, Option.mem_def, Option.some.injEq] at hy
      subst hy
      cases hlast : t.last_log_state with
      | none =>
        rw [hnone hlast] at hx
        simp at hx
      | some x0 =>
        rw [hsome x0 hlast] at hx
        simp only [Option.mem_def, Option.some.injEq] at hx
        subst hx
        intro he
        exact hne (by rw [hlast, he])
    · intro hc
      simp at hc
    · intro x hx
      simp only [Option.some.injEq] at hx
      show (t.log_lines ++ [t.position_counters]).getLast? = some x
      rw [List.getLast?_concat, hx]

theorem goodLog_updateAt (t : DepthTracker) (cp : List Nat) (now : ℚ) (j : Nat)
    (h : goodLog t) : goodLog (t.updateAt cp now j) := by
  unfold DepthTracker.updateAt
  split
  · split
    · split
      · exact h
      · split
        · exact goodLog_log_state _ h
        · exact h
    · split
      · exact h
      · exact h
  · exact h

theorem goodLog_update (t : DepthTracker) (cp : List Nat) (now : ℚ)
    (h : goodLog t) : goodLog (t.update cp now) := by
  unfold DepthTracker.update
  have aux : ∀ (js : List Nat) (s : DepthTracker), goodLog s →
      goodLog (js.foldl (fun s j => s.updateAt cp now j) s) := by
    intro js
    induction js with
    | nil => intro s hs; exact hs
    | cons j rest ih => intro s hs; exact ih _ (goodLog_updateAt s cp now j hs)
  exact aux _ t h

theorem goodLog_init : goodLog DepthTracker.init := by
  refine ⟨List.chain'_nil, fun _ => rfl, ?_⟩
  intro x hx
  cases hx

theorem goodLog_runCalls (calls : List (List Nat × ℚ)) :
    ∀ (t : DepthTracker), goodLog t → goodLog (runCalls t calls) := by
  induction calls with
  | nil => intro t h; exact h
  | cons c rest ih =>
    intro t h
    exact ih _ (goodLog_update t c.1 c.2 h)

/-- C7 — Dedup logging: across any sequence of `update` calls starting from a
fresh tracker, the emitted log lines (each the full counter vector) never
contain two equal consecutive lines: a line is appended only when the counter
vector differs from the last emitted one. -/
theorem dedup_logging (calls : List (List Nat × ℚ)) :
    List.Chain' (fun a b => a ≠ b) (runCalls DepthTracker.init calls).log_lines :=
  (goodLog_runCalls calls DepthTracker.init goodLog_init).1

/-! ### Single-zone update step lemmas -/

theorem update_single (t : DepthTracker) (now : ℚ) (b : Nat) :
    t.update [b] now = t.updateAt [b] now 0 := rfl

theorem update1_start (t : DepthTracker) (now : ℚ)
    (h : alookup 0 t.position_timers = none) :
    t.update [1] now =
      { t with
          position_timers := ains 0 now t.position_timers
          last_increment_time := ains 0 now t.last_increment_time } := by
  rw [update_single]
  unfold DepthTracker.updateAt
  simp [h]

theorem update1_noinc (t : DepthTracker) (now started : ℚ)
    (hT : alookup 0 t.position_timers = some started)
    (hc : ¬ (t.threshold_time ≤ now - started ∧
        t.increment_interval ≤ now - (alookup 0 t.last_increment_time).getD 0)) :
    t.update [1] now = t := by
  rw [update_single]
  unfold DepthTracker.updateAt
  simp [hT, hc]

theorem update1_inc (t : DepthTracker) (now started : ℚ)
    (hT : alookup 0 t.position_timers = some started)
    (hc : t.threshold_time ≤ now - started ∧
        t.increment_interval ≤ now - (alookup 0 t.last_increment_time).getD 0) :
    t.update [1] now =
      ({ t with
          position_counters := t.position_counters.set 0 (t.position_counters.getD 0 0 + 1)
          last_increment_time := ains 0 now t.last_increment_time }).log_state := by
  rw [update_single]
  unfold DepthTracker.updateAt
  simp [hT, hc]

theorem update0_none (t : DepthTracker) (now : ℚ)
    (h : alookup 0 t.position_timers = none) :
    t.update [0] now = t := by
  rw [update_single]
  unfold DepthTracker.updateAt
  simp [h]

theorem update0_some (t : DepthTracker) (now s0 : ℚ)
    (h : alookup 0 t.position_timers = some s0) :
    t.update [0] now =
      { t with
          position_timers := aerase 0 t.position_timers
          last_increment_time := aerase 0 t.last_increment_time } := by
  rw [update_single]
  unfold DepthTracker.updateAt
  simp [h]

/-! ### C4: debounce -/

theorem debounce_aux : ∀ (sched : List (ℚ × Bool)) (t : DepthTracker),
    t.threshold_time = 3 →
    ((t.position_timers = [] ∧ t.last_increment_time = [] ∧ spansOKb none sched = true) ∨
     (∃ st li, t.position_timers = [(0, st)] ∧ t.last_increment_time = [(0, li)] ∧
        spansOKb (some st) sched = true)) →
    (runSched t sched).position_counters = t.position_counters := by
  intro sched
  induction sched with
  | nil => intro t _ _; rfl
  | cons e rest ih =>
    intro t hth hinv
    obtain ⟨τ, b⟩ := e
    show (runSched (t.update [if b then 1 else 0] τ) rest).position_counters =
      t.position_counters
    rcases hinv with ⟨htm, hli, hok⟩ | ⟨st, li, htm, hli, hok⟩
    · cases b with
      | true =>
        rw [if_pos rfl]
        have hnone : alookup 0 t.position_timers = none := by rw [htm]; rfl
        rw [update1_start t τ hnone]
        simp only [spansOKb, if_pos rfl] at hok
        refine ih _ hth (Or.inr ⟨τ, τ, ?_, ?_, ?_⟩)
        · show ains 0 τ t.position_timers = [(0, τ)]
          rw [htm]; rfl
        · show ains 0 τ t.last_increment_time = [(0, τ)]
          rw [hli]; rfl
        · exact hok
      | false =>
        rw [if_neg (by simp)]
        have hnone : alookup 0 t.position_timers = none := by rw [htm]; rfl
        rw [update0_none t τ hnone]
        refine ih t hth (Or.inl ⟨htm, hli, ?_⟩)
        simpa [spansOKb] using hok
    · cases b with
      | true =>
        rw [if_pos rfl]
        have hsome : alookup 0 t.position_timers = some st := by rw [htm]; simp [alookup]
        simp only [spansOKb, if_true, Bool.and_eq_true, decide_eq_true_eq] at hok
        have hnc : ¬ (t.threshold_time ≤ τ - st ∧
            t.increment_interval ≤ τ - (alookup 0 t.last_increment_time).getD 0) := by
          intro hcc
          rw [hth] at hcc
          exact absurd hcc.1 (not_le.mpr hok.1)
        rw [update1_noinc t τ st hsome hnc]
        exact ih t hth (Or.inr ⟨st, li, htm, hli, hok.2⟩)
      | false =>
        rw [if_neg (by simp)]
        have hsome : alookup 0 t.position_timers = some st := by rw [htm]; simp [alookup]
        rw [update0_some t τ st hsome]
        refine ih _ hth (Or.inl ⟨?_, ?_, ?_⟩)
        · show aerase 0 t.position_timers = []
          rw [htm]; rfl
        · show aerase 0 t.last_increment_time = []
          rw [hli]; rfl
        · simpa [spansOKb] using hok

/-- C4 — Debounce: in any run of single-zone `update` calls in which every
contiguous active span is shorter than `threshold_time` (3 s), the zone's
counter stays 0: the zone never starts counting. -/
theorem debounce (sched : List (ℚ × Bool)) (h : spansOKb none sched = true) :
    (runSched DepthTracker.init sched).position_counters.getD 0 0 = 0 := by
  rw [debounce_aux sched DepthTracker.init rfl (Or.inl ⟨rfl, rfl, h⟩)]
  rfl

/-- C4 witness: a zone toggled active/inactive with spans of at most 2 s
(below the 3 s threshold) over several calls keeps counter 0. -/
theorem debounce_witness :
    spansOKb none [(0, true), (1, true), (2, false), (3, true), (4, true), (5, false)] = true ∧
    (runSched DepthTracker.init
        [(0, true), (1, true), (2, false), (3, true), (4, true), (5, false)]
      ).position_counters.getD 0 0 = 0 :=
  ⟨by with_unfolding_all decide,
   debounce [(0, true), (1, true), (2, false), (3, true), (4, true), (5, false)]
     (by with_unfolding_all decide)⟩

/-! ### C3: counting cadence -/

theorem three_le_half_iff (j : Nat) : (3 : ℚ) ≤ (j : ℚ) / 2 ↔ 6 ≤ j := by
  rw [le_div_iff₀ (by norm_num : (0:ℚ) < 2)]
  norm_cast

theorem half_sub_half (j : Nat) : ((j + 1 : Nat) : ℚ) / 2 - (j : ℚ) / 2 = 1 / 2 := by
  push_cast
  ring

theorem runActive_state (k : Nat) :
    (runActive DepthTracker.init (schedTimes k)).position_timers = [(0, 0)] ∧
    (runActive DepthTracker.init (schedTimes k)).last_increment_time =
      [(0, if k < 6 then 0 else (k : ℚ) / 2)] ∧
    (runActive DepthTracker.init (schedTimes k)).position_counters =
      (if k < 6 then 0 else k - 5) :: List.replicate 9 0 ∧
    (runActive DepthTracker.init (schedTimes k)).threshold_time = 3 ∧
    (runActive DepthTracker.init (schedTimes k)).increment_interval = 1 / 2 := by
  induction k with
  | zero =>
    have h0 : schedTimes 0 = [0] := by
      show [((0 : Nat) : ℚ) / 2] = [0]
      norm_num
    rw [h0]
    rw [show runActive DepthTracker.init [0] = DepthTracker.init.update [1] 0 from rfl,
        update1_start _ _ (by rfl)]
    refine ⟨rfl, ?_, ?_, rfl, rfl⟩
    · rw [if_pos (by omega : (0 : Nat) < 6)]
      rfl
    · rw [if_pos (by omega : (0 : Nat) < 6)]
      rfl
  | succ k ih =>
    obtain ⟨htm, hli, hc, hth, hiv⟩ := ih
    have hsnoc : schedTimes (k + 1) = schedTimes k ++ [((k + 1 : Nat) : ℚ) / 2] := by
      unfold schedTimes
      rw [List.range_succ]
      simp
    have hrun : runActive DepthTracker.init (schedTimes (k + 1)) =
        (runActive DepthTracker.init (schedTimes k)).update [1] (((k + 1 : Nat) : ℚ) / 2) := by
      rw [hsnoc]
      unfold runActive
      rw [List.foldl_append]
      rfl
    have hsome : alookup 0
        (runActive DepthTracker.init (schedTimes k)).position_timers = some 0 := by
      rw [htm]; simp [alookup]
    by_cases h6 : k + 1 < 6
    · have hk6 : k < 6 := by omega
      have hnc : ¬ ((runActive DepthTracker.init (schedTimes k)).threshold_time ≤
            ((k + 1 : Nat) : ℚ) / 2 - 0 ∧
          (runActive DepthTracker.init (schedTimes k)).increment_interval ≤
            ((k + 1 : Nat) : ℚ) / 2 -
              (alookup 0 (runActive DepthTracker.init
                (schedTimes k)).last_increment_time).getD 0) := by
        intro hcc
        rw [hth, sub_zero, three_le_half_iff] at hcc
        omega
      rw [hrun, update1_noinc _ _ 0 hsome hnc]
      refine ⟨htm, ?_, ?_, hth, hiv⟩
      · rw [hli, if_pos hk6, if_pos h6]
      · rw [hc, if_pos hk6, if_pos h6]
    · have hge : 6 ≤ k + 1 := by omega
      have hLval : (alookup 0 (runActive DepthTracker.init
          (schedTimes k)).last_increment_time).getD 0 =
          if k < 6 then 0 else (k : ℚ) / 2 := by
        rw [hli]; simp [alookup]
      have hB : (1 : ℚ) / 2 ≤ ((k + 1 : Nat) : ℚ) / 2 -
          (alookup 0 (runActive DepthTracker.init
            (schedTimes k)).last_increment_time).getD 0 := by
        rw [hLval]
        by_cases hk6 : k < 6
        · -- k = 5: the gap since the arming call is (k+1)/2 - 0 = 3
          rw [if_pos hk6, sub_zero]
          have h3 : (3 : ℚ) ≤ ((k + 1 : Nat) : ℚ) / 2 := (three_le_half_iff _).mpr hge
          linarith
        · rw [if_neg hk6, half_sub_half]
      have hcond : (runActive DepthTracker.init (schedTimes k)).threshold_time ≤
            ((k + 1 : Nat) : ℚ) / 2 - 0 ∧
          (runActive DepthTracker.init (schedTimes k)).increment_interval ≤
            ((k + 1 : Nat) : ℚ) / 2 -
              (alookup 0 (runActive DepthTracker.init
                (schedTimes k)).last_increment_time).getD 0 := by
        constructor
        · rw [hth, sub_zero, three_le_half_iff]
          exact hge
        · rw [hiv]
          exact hB
      rw [hrun, update1_inc _ _ 0 hsome hcond]
      refine ⟨?_, ?_, ?_, ?_, ?_⟩
      · rw [log_state_timers]
        exact htm
      · rw [log_state_last_inc]
        show ains 0 (((k + 1 : Nat) : ℚ) / 2)
          (runActive DepthTracker.init (schedTimes k)).last_increment_time = _
        rw [hli, if_neg (by omega : ¬ k + 1 < 6)]
        by_cases hk6 : k < 6
        · rw [if_pos hk6]
          simp [ains]
        · rw [if_neg hk6]
          simp [ains]
      · rw [log_state_counters]
        show ((runActive DepthTracker.init (schedTimes k)).position_counters.set 0
          ((runActive DepthTracker.init (schedTimes k)).position_counters.getD 0 0 + 1)) = _
        rw [hc]
        by_cases hk6 : k < 6
        · rw [if_pos hk6, if_neg (by omega : ¬ k + 1 < 6)]
          have h5 : k = 5 := by omega
          subst h5
          rfl
        · rw [if_neg hk6, if_neg (by omega : ¬ k + 1 < 6)]
          have harith : k - 5 + 1 = k + 1 - 5 := by omega
          simp [List.set, harith]
      · rw [log_state_threshold]
        exact hth
      · rw [log_state_interval]
        exact hiv

/-- C3 — Counting cadence: zone 0 held continuously active with one `update`
call every `increment_interval` (0.5 s) at times `0, 0.5, ..., 2.5 + N*0.5`
(so the zone is active throughout the `threshold_time + N*increment_interval`
= `3 + N*0.5` seconds that end with the next, inactive instant) has counter
exactly `N`: the first increment fires at 3.0 s and one more fires every
0.5 s after that. -/
theorem counting_cadence (N : Nat) (h : 1 ≤ N) :
    (runActive DepthTracker.init (schedTimes (5 + N))).position_counters.getD 0 0 = N := by
  obtain ⟨-, -, hc, -, -⟩ := runActive_state (5 + N)
  rw [hc, if_neg (by omega : ¬ 5 + N < 6)]
  show 5 + N - 5 = N
  omega

/-- C3 witness: with `threshold_time = 3.0` and `increment_interval = 0.5`,
a zone held active for 5.5 seconds (update calls at 0, 0.5, ..., 5.0) has
counter 5. -/
theorem counting_cadence_witness :
    1 ≤ 5 ∧
    (runActive DepthTracker.init (schedTimes 10)).position_counters.getD 0 0 = 5 :=
  ⟨by decide, counting_cadence 5 (by decide)⟩

/-! ### C1: compositing priority -/

theorem paintOne_apply (m : MaskManager) (state : StateMap) (acc : Bitmap) (gray : Nat)
    (p : Pix) :
    paintOne m state acc gray p =
      if paintsB m state gray p = true then (alookup gray m.config.gray_indexes).getD 0
      else acc p := by
  unfold paintOne paintsB
  by_cases he : (activeFrames m state gray).isEmpty
  · simp [he]
  · simp only [he, Bool.not_false, if_false, Bool.false_and, Bool.and_false]
    cases hidx : alookup gray m.config.gray_indexes with
    | none => simp [hidx, he]
    | some idx =>
      by_cases hp : 0 < combineFrames (activeFrames m state gray) p
      · simp [hidx, he, hp]
      · simp [hidx, he, hp]

theorem foldl_paintOne (m : MaskManager) (state : StateMap) (p : Pix) :
    ∀ (l : List Nat) (acc : Bitmap),
      (l.foldl (paintOne m state) acc) p =
        match (l.filter (fun g => paintsB m state g p)).getLast? with
        | some g => (alookup g m.config.gray_indexes).getD 0
        | none => acc p := by
  intro l
  induction l with
  | nil => intro acc; rfl
  | cons g rest ih =>
    intro acc
    rw [List.foldl_cons, ih, List.filter_cons]
    by_cases hg : paintsB m state g p = true
    · rw [if_pos hg]
      cases hrest : (rest.filter (fun g => paintsB m state g p)).getLast? with
      | some g' =>
        obtain ⟨a, as, hl⟩ : ∃ a as,
            rest.filter (fun g => paintsB m state g p) = a :: as := by
          cases hl : rest.filter (fun g => paintsB m state g p) with
          | nil => rw [hl] at hrest; cases hrest
          | cons a as => exact ⟨a, as, rfl⟩
        rw [hl, List.getLast?_cons_cons, ← hl, hrest]
      | none =>
        have hnil : rest.filter (fun g => paintsB m state g p) = [] := by
          cases hl : rest.filter (fun g => paintsB m state g p) with
          | nil => rfl
          | cons a as =>
            rw [hl, List.getLast?_eq_none_iff] at hrest
            cases hrest
        rw [hnil]
        show paintOne m state acc g p = (alookup g m.config.gray_indexes).getD 0
        rw [paintOne_apply, if_pos hg]
    · rw [if_neg hg]
      cases hrest : (rest.filter (fun g => paintsB m state g p)).getLast? with
      | some g' => rfl
      | none =>
        show paintOne m state acc g p = acc p
        rw [paintOne_apply, if_neg hg]

/-- C1 (amended) — Compositing priority: sorting is descending by
`output_index`, but each later-processed layer overwrites the earlier ones
wherever it paints, so for every pixel the final value of the composite equals
the `output_index` of the layer that sorts LAST (not first) among the layers
that paint that pixel — i.e. the smallest mapped `output_index` wins
(ties keep the configured order, Python's stable sort). -/
theorem compositing_priority (m : MaskManager) (state : StateMap) (p : Pix) (g : Nat)
    (hlast : ((sortedGrayValues m.config).filter
        (fun g => paintsB m state g p)).getLast? = some g) :
    m.composite state p = (alookup g m.config.gray_indexes).getD 0 := by
  unfold MaskManager.composite
  rw [foldl_paintOne, hlast]

/-- C1 witness: in the two-layer fixture both layers paint pixel (0, 0); the
last painter in the processing order is gray value 50 (output index 5), and
the composite indeed holds 5 there. -/
theorem compositing_priority_witness :
    ((sortedGrayValues mC1.config).filter
        (fun g => paintsB mC1 stateC1 g (0, 0))).getLast? = some 50 ∧
    mC1.composite stateC1 (0, 0) = (alookup 50 mC1.config.gray_indexes).getD 0 :=
  ⟨by decide, compositing_priority mC1 stateC1 (0, 0) 50 (by decide)⟩

/-- C1 counterexample: layers with output indexes 10 (gray 100) and 5
(gray 50) both paint pixel (0, 0); the claimed winner is the layer that sorts
first (output index 10), but `process_and_save`'s composite holds 5 there. -/
theorem compositing_priority_counterexample :
    sortedGrayValues cfgC1 = [100, 50] ∧
    paintsB mC1 stateC1 100 (0, 0) = true ∧
    paintsB mC1 stateC1 50 (0, 0) = true ∧
    alookup 100 cfgC1.gray_indexes = some 10 ∧
    mC1.composite stateC1 (0, 0) = 5 ∧
    ¬ mC1.composite stateC1 (0, 0) = 10 := by
  refine ⟨by decide, by decide, by decide, by decide, by decide, by decide⟩

/-! ### C2: frame clamping -/

theorem lfStep_max_inv (acc : List (Nat × Bitmap) × Nat × Nat) (f : Nat × Option Bitmap)
    (h : acc.2.1 = 0 ∨ (alookup acc.2.1 acc.1).isSome = true) :
    (lfStep acc f).2.1 = 0 ∨
      (alookup (lfStep acc f).2.1 (lfStep acc f).1).isSome = true := by
  unfold lfStep
  cases hf : f.2 with
  | none => exact h
  | some img =>
    right
    by_cases hle : acc.2.1 ≤ f.1
    · show (alookup (max acc.2.1 f.1) (ains f.1 (binarize img) acc.1)).isSome = true
      rw [Nat.max_eq_right hle, alookup_ains_self]
      rfl
    · show (alookup (max acc.2.1 f.1) (ains f.1 (binarize img) acc.1)).isSome = true
      rw [Nat.max_eq_left (by omega)]
      rcases h with h0 | hs
      · omega
      · exact alookup_ains_isSome _ _ hs

theorem foldl_lfStep_max_inv (files : List (Nat × Option Bitmap)) :
    ∀ acc, (acc.2.1 = 0 ∨ (alookup acc.2.1 acc.1).isSome = true) →
      ((files.foldl lfStep acc).2.1 = 0 ∨
        (alookup (files.foldl lfStep acc).2.1 (files.foldl lfStep acc).1).isSome = true) := by
  induction files with
  | nil => intro acc h; exact h
  | cons f rest ih => intro acc h; exact ih _ (lfStep_max_inv acc f h)

theorem loadFrames_max_inv (files : List (Nat × Option Bitmap)) :
    (loadFrames files).2.1 = 0 ∨
      (alookup (loadFrames files).2.1 (loadFrames files).1).isSome = true :=
  foldl_lfStep_max_inv files ([], 0, 0) (Or.inl rfl)

theorem loadGray_aux : ∀ (sds : List SeqDir)
    (acc : List (Nat × List (Nat × Bitmap)) × List (Nat × Nat) × Nat),
    (sds.map SeqDir.seq_num).Nodup →
    (∀ s ∈ sds.map SeqDir.seq_num, alookup s acc.1 = none ∧ alookup s acc.2.1 = none) →
    seqInv acc.2.1 acc.1 →
    seqInv (sds.foldl lgStep acc).2.1 (sds.foldl lgStep acc).1 := by
  intro sds
  induction sds with
  | nil => intro acc _ _ h; exact h
  | cons sd rest ih =>
    intro acc hnd habs hinv
    rw [List.map_cons, List.nodup_cons] at hnd
    refine ih _ hnd.2 ?_ ?_
    · intro s hs
      have hne : sd.seq_num ≠ s := by
        intro he
        exact hnd.1 (he ▸ hs)
      constructor
      · show alookup s (ains sd.seq_num (loadFrames sd.frame_files).1 acc.1) = none
        rw [alookup_ains_ne hne]
        exact (habs s (List.mem_cons_of_mem _ hs)).1
      · show alookup s (if 0 < (loadFrames sd.frame_files).2.2
            then ains sd.seq_num (loadFrames sd.frame_files).2.1 acc.2.1 else acc.2.1) = none
        split
        · rw [alookup_ains_ne hne]
          exact (habs s (List.mem_cons_of_mem _ hs)).2
        · exact (habs s (List.mem_cons_of_mem _ hs)).2
    · intro seq mf hmf
      by_cases hseq : seq = sd.seq_num
      · subst hseq
        show ∃ fr, alookup sd.seq_num
            (ains sd.seq_num (loadFrames sd.frame_files).1 acc.1) = some fr ∧
          (mf = 0 ∨ (alookup mf fr).isSome = true)
        rw [alookup_ains_self]
        refine ⟨_, rfl, ?_⟩
        revert hmf
        show alookup sd.seq_num (if 0 < (loadFrames sd.frame_files).2.2
            then ains sd.seq_num (loadFrames sd.frame_files).2.1 acc.2.1 else acc.2.1) =
            some mf →
          (mf = 0 ∨ (alookup mf (loadFrames sd.frame_files).1).isSome = true)
        split
        · rw [alookup_ains_self]
          intro hmf
          cases hmf
          exact loadFrames_max_inv sd.frame_files
        · intro hmf
          rw [(habs sd.seq_num (by exact List.mem_cons_self _ _)).2] at hmf
          cases hmf
      · have hne : sd.seq_num ≠ seq := fun he => hseq he.symm
        have hmf' : alookup seq acc.2.1 = some mf := by
          revert hmf
          show alookup seq (if 0 < (loadFrames sd.frame_files).2.2
              then ains sd.seq_num (loadFrames sd.frame_files).2.1 acc.2.1 else acc.2.1) =
              some mf → alookup seq acc.2.1 = some mf
          split
          · rw [alookup_ains_ne hne]
            exact id
          · exact id
        obtain ⟨fr, hfr, hcond⟩ := hinv seq mf hmf'
        refine ⟨fr, ?_, hcond⟩
        show alookup seq (ains sd.seq_num (loadFrames sd.frame_files).1 acc.1) = some fr
        rw [alookup_ains_ne hne]
        exact hfr

theorem loadGray_seqInv (sds : List SeqDir) (h : (sds.map SeqDir.seq_num).Nodup) :
    seqInv (loadGray sds).2.1 (loadGray sds).1 := by
  refine loadGray_aux sds ([], [], 0) h ?_ ?_
  · intro s _
    exact ⟨rfl, rfl⟩
  · intro seq mf hmf
    cases hmf

theorem loadStep_storeInv (disk : Disk)
    (hd : ∀ e ∈ disk, (e.2.map SeqDir.seq_num).Nodup)
    (acc : MaskManager × Nat) (g : Nat) (h : storeInv acc.1) :
    storeInv (loadStep disk acc g).1 := by
  unfold loadStep
  cases hdisk : alookup g disk with
  | none => exact h
  | some sds =>
    intro g' mm hmm
    by_cases hg : g' = g
    · subst hg
      show ∃ fm, alookup g' (ains g' (loadGray sds).1 acc.1.sequence_frames) = some fm ∧
        seqInv mm fm
      rw [alookup_ains_self]
      refine ⟨_, rfl, ?_⟩
      have : alookup g' (ains g' (loadGray sds).2.1 acc.1.sequence_max_frames) =
          some (loadGray sds).2.1 := alookup_ains_self _ _ _
      rw [this] at hmm
      cases hmm
      exact loadGray_seqInv sds (hd _ (alookup_mem hdisk))
    · have hne : g ≠ g' := fun he => hg he.symm
      have hmm' : alookup g' acc.1.sequence_max_frames = some mm := by
        rw [show alookup g' (ains g (loadGray sds).2.1 acc.1.sequence_max_frames) =
            alookup g' acc.1.sequence_max_frames from alookup_ains_ne hne _ _] at hmm
        exact hmm
      obtain ⟨fm, hfm, hinv⟩ := h g' mm hmm'
      refine ⟨fm, ?_, hinv⟩
      show alookup g' (ains g (loadGray sds).1 acc.1.sequence_frames) = some fm
      rw [alookup_ains_ne hne]
      exact hfm

theorem load_storeInv (cfg : MaskConfig) (disk : Disk)
    (hd : ∀ e ∈ disk, (e.2.map SeqDir.seq_num).Nodup) :
    storeInv ((MaskManager.init cfg).load_sequence_frames disk).1 := by
  unfold MaskManager.load_sequence_frames
  have aux : ∀ (gvs : List Nat) (acc : MaskManager × Nat), storeInv acc.1 →
      storeInv ((gvs.foldl (loadStep disk) acc)).1 := by
    intro gvs
    induction gvs with
    | nil => intro acc h; exact h
    | cons g rest ih => intro acc h; exact ih _ (loadStep_storeInv disk hd acc g h)
  refine aux _ _ ?_
  intro g mm hmm
  cases hmm

/-- C2 counterexample: for the store loaded from `diskC2`, sequence 1 of gray
value 7 has discovered frames 1 and 3 (`max_frame = 3`), yet requesting the
never-discovered frame 2 returns `none` (the claim requires the bitmap of
`max_frame`): clamping only applies above `max_frame`, not to gaps. -/
theorem frame_clamp_counterexample :
    alookup 7 mC2.sequence_max_frames = some [(1, 3)] ∧
    mC2.get_frame 7 1 2 = none ∧
    (mC2.get_frame 7 1 3).isSome = true := by
  refine ⟨by decide, rfl, by decide⟩

/-- C2 (amended) — Frame clamping: for a store produced by
`load_sequence_frames` (from any disk without duplicate sequence numbers
inside one gray directory), for every `(gray_value, sequence_number)` with a
recorded nonzero `max_frame`, `get_frame` with any `frame_number ≥ max_frame`
returns the bitmap of `max_frame` (freeze-on-last-frame), not `none`.
Requests for never-discovered frame numbers BELOW `max_frame` (gaps) return
`none` instead. -/
theorem frame_clamp (cfg : MaskConfig) (disk : Disk) (gray seq frame mf : Nat)
    (mm : List (Nat × Nat))
    (hd : ∀ e ∈ disk, (e.2.map SeqDir.seq_num).Nodup)
    (hmax : alookup gray
        ((MaskManager.init cfg).load_sequence_frames disk).1.sequence_max_frames = some mm)
    (hseq : alookup seq mm = some mf)
    (hmf : mf ≠ 0)
    (hge : mf ≤ frame) :
    ((MaskManager.init cfg).load_sequence_frames disk).1.get_frame gray seq frame =
      ((MaskManager.init cfg).load_sequence_frames disk).1.get_frame gray seq mf ∧
    (((MaskManager.init cfg).load_sequence_frames disk).1.get_frame gray seq frame).isSome
      = true := by
  obtain ⟨fm, hfm, hseqInv⟩ := load_storeInv cfg disk hd gray mm hmax
  obtain ⟨fr, hfr, hcond⟩ := hseqInv seq mf hseq
  have hcond' : (alookup mf fr).isSome = true := hcond.resolve_left hmf
  unfold MaskManager.get_frame
  simp only [hfm, hfr, hmax, Option.getD_some, hseq]
  simp only [if_neg hmf, min_eq_right hge, min_self]
  exact ⟨trivial, hcond'⟩

/-- C2 witness: in the gap fixture, requesting frame 5 (> max 3) of sequence 1
returns the frame-3 bitmap (same result as requesting 3 itself, and not
`none`). -/
theorem frame_clamp_witness :
    ((∀ e ∈ diskC2, (e.2.map SeqDir.seq_num).Nodup) ∧
      alookup 7 ((MaskManager.init cfgC2).load_sequence_frames diskC2).1.sequence_max_frames
        = some [(1, 3)] ∧
      alookup 1 [(1, 3)] = some 3 ∧ (3 : Nat) ≠ 0 ∧ (3 : Nat) ≤ 5) ∧
    (((MaskManager.init cfgC2).load_sequence_frames diskC2).1.get_frame 7 1 5 =
        ((MaskManager.init cfgC2).load_sequence_frames diskC2).1.get_frame 7 1 3 ∧
      (((MaskManager.init cfgC2).load_sequence_frames diskC2).1.get_frame 7 1 5).isSome
        = true) :=
  ⟨⟨by decide, by decide, by decide, by decide, by decide⟩,
   frame_clamp cfgC2 diskC2 7 1 5 3 [(1, 3)] (by decide) (by decide) (by decide)
     (by decide) (by decide)⟩

/-! ### C8: empty-state no-op -/

/-- C8 — Empty-state no-op: `process_and_save` on the empty mapping returns
`None` with the manager unchanged (no file write is attempted: the result is
`.ok` for every writer, including always-failing ones), and `process_state`
on an empty, all-zero, or previously-processed counter vector is a no-op. -/
theorem empty_state_noop :
    (∀ (m : MaskManager) (wr : WriteTry), m.process_and_save wr [] = .ok (none, m)) ∧
    (∀ (t : TMPLMonitor) (wr : WriteTry) (state : List Nat),
        (state = [] ∨ (∀ v ∈ state, v = 0) ∨ t.previous_state = some state) →
        t.process_state wr state = .ok t) := by
  constructor
  · intro m wr
    rfl
  · intro t wr state h
    unfold TMPLMonitor.process_state
    split
    · rfl
    · rename_i hcond
      split
      · rfl
      · rename_i hprev
        exfalso
        rcases h with h | h | h
        · exact hcond (Or.inl h)
        · exact hcond (Or.inr h)
        · exact hprev h

/-- C8 witness: the all-zero vector `[0, 0]` is a no-op on the concrete
monitor. -/
theorem empty_state_noop_witness :
    (([0, 0] : List Nat) = [] ∨ (∀ v ∈ ([0, 0] : List Nat), v = 0) ∨
        tC.previous_state = some [0, 0]) ∧
    tC.process_state wrOk [0, 0] = .ok tC :=
  ⟨Or.inr (Or.inl (by decide)),
   empty_state_noop.2 tC wrOk [0, 0] (Or.inr (Or.inl (by decide)))⟩

/-! ### C10: error atomicity of the state dedup -/

/-- C10 — Error atomicity: if `process_state` raises (an exception propagated
from a manager's `process_and_save`), `previous_state` is left unchanged —
it is assigned only after every manager completed — and in particular it does
not equal the counter vector just attempted, so the same vector is not
suppressed by the equality dedup on the next call. -/
theorem state_dedup_atomicity (t : TMPLMonitor) (wr : WriteTry) (state : List Nat)
    (t' : TMPLMonitor) (h : t.process_state wr state = .error t') :
    t'.previous_state = t.previous_state ∧ t'.previous_state ≠ some state := by
  unfold TMPLMonitor.process_state at h
  split at h
  · cases h
  · split at h
    · cases h
    · rename_i hprev
      split at h
      · cases h
      · cases h
        exact ⟨rfl, hprev⟩

/-- C10 witness: with an always-failing writer, processing `[1]` on the
concrete monitor raises with `previous_state` still `none ≠ some [1]`. -/
theorem state_dedup_atomicity_witness :
    tC.process_state wrFail [1] = .error tC ∧
    (tC.previous_state = tC.previous_state ∧ tC.previous_state ≠ some [1]) :=
  ⟨rfl, state_dedup_atomicity tC wrFail [1] tC rfl⟩

/-! ### C9: frame storage is eager and unbounded -/

theorem sum_ains_none {α : Type} (f : α → Nat) (k : Nat) (v : α) :
    ∀ (l : List (Nat × α)), alookup k l = none →
      ((ains k v l).map (fun e => f e.2)).sum = (l.map (fun e => f e.2)).sum + f v := by
  intro l
  induction l with
  | nil => intro _; simp [ains]
  | cons hd tl ih =>
    intro h
    by_cases h2 : hd.1 = k
    · simp [alookup, h2] at h
    · simp [alookup, h2] at h
      simp only [ains, if_neg h2, List.map_cons, List.sum_cons, ih h]
      omega

theorem foldl_lfStep_len : ∀ (files : List (Nat × Option Bitmap))
    (acc : List (Nat × Bitmap) × Nat × Nat),
    (files.map Prod.fst).Nodup →
    (∀ k ∈ files.map Prod.fst, alookup k acc.1 = none) →
    acc.1.length = acc.2.2 →
    (files.foldl lfStep acc).1.length = (files.foldl lfStep acc).2.2 := by
  intro files
  induction files with
  | nil => intro acc _ _ h; exact h
  | cons f rest ih =>
    intro acc hnd habs hlen
    rw [List.map_cons, List.nodup_cons] at hnd
    refine ih _ hnd.2 ?_ ?_
    · intro k hk
      have hne : f.1 ≠ k := fun he => hnd.1 (he ▸ hk)
      unfold lfStep
      cases f.2 with
      | none => exact habs k (List.mem_cons_of_mem _ hk)
      | some img =>
        show alookup k (ains f.1 (binarize img) acc.1) = none
        rw [alookup_ains_ne hne]
        exact habs k (List.mem_cons_of_mem _ hk)
    · unfold lfStep
      cases f.2 with
      | none => exact hlen
      | some img =>
        show (ains f.1 (binarize img) acc.1).length = acc.2.2 + 1
        rw [ains_length_of_alookup_none _ (habs f.1 (List.mem_cons_self _ _)), hlen]

theorem loadFrames_len (files : List (Nat × Option Bitmap))
    (h : (files.map Prod.fst).Nodup) :
    (loadFrames files).1.length = (loadFrames files).2.2 :=
  foldl_lfStep_len files ([], 0, 0) h (fun _ _ => rfl) rfl

theorem foldl_lgStep_held : ∀ (sds : List SeqDir)
    (acc : List (Nat × List (Nat × Bitmap)) × List (Nat × Nat) × Nat),
    (sds.map SeqDir.seq_num).Nodup →
    (∀ sd ∈ sds, (sd.frame_files.map Prod.fst).Nodup) →
    (∀ s ∈ sds.map SeqDir.seq_num, alookup s acc.1 = none) →
    heldFramesGray acc.1 = acc.2.2 →
    heldFramesGray (sds.foldl lgStep acc).1 = (sds.foldl lgStep acc).2.2 := by
  intro sds
  induction sds with
  | nil => intro acc _ _ _ h; exact h
  | cons sd rest ih =>
    intro acc hnd hfr habs hheld
    rw [List.map_cons, List.nodup_cons] at hnd
    refine ih _ hnd.2 (fun s hs => hfr s (List.mem_cons_of_mem _ hs)) ?_ ?_
    · intro s hs
      have hne : sd.seq_num ≠ s := fun he => hnd.1 (he ▸ hs)
      show alookup s (ains sd.seq_num (loadFrames sd.frame_files).1 acc.1) = none
      rw [alookup_ains_ne hne]
      exact habs s (List.mem_cons_of_mem _ hs)
    · show heldFramesGray (ains sd.seq_num (loadFrames sd.frame_files).1 acc.1) =
        acc.2.2 + (loadFrames sd.frame_files).2.2
      unfold heldFramesGray
      rw [sum_ains_none List.length sd.seq_num _ _
            (habs sd.seq_num (List.mem_cons_self _ _))]
      unfold heldFramesGray at hheld
      rw [hheld, loadFrames_len _ (hfr sd (List.mem_cons_self _ _))]

theorem loadGray_held (sds : List SeqDir)
    (h1 : (sds.map SeqDir.seq_num).Nodup)
    (h2 : ∀ sd ∈ sds, (sd.frame_files.map Prod.fst).Nodup) :
    heldFramesGray (loadGray sds).1 = (loadGray sds).2.2 :=
  foldl_lgStep_held sds ([], [], 0) h1 h2 (fun _ _ => rfl) rfl

theorem foldl_loadStep_held (disk : Disk)
    (hd2 : ∀ e ∈ disk, (e.2.map SeqDir.seq_num).Nodup)
    (hd3 : ∀ e ∈ disk, ∀ sd ∈ e.2, (sd.frame_files.map Prod.fst).Nodup) :
    ∀ (gvs : List Nat) (acc : MaskManager × Nat),
      gvs.Nodup →
      (∀ g ∈ gvs, alookup g acc.1.sequence_frames = none) →
      acc.1.heldFrames = acc.2 →
      (gvs.foldl (loadStep disk) acc).1.heldFrames = (gvs.foldl (loadStep disk) acc).2 := by
  intro gvs
  induction gvs with
  | nil => intro acc _ _ h; exact h
  | cons g rest ih =>
    intro acc hnd habs hheld
    rw [List.nodup_cons] at hnd
    refine ih _ hnd.2 ?_ ?_
    · intro g' hg'
      have hne : g ≠ g' := fun he => hnd.1 (he ▸ hg')
      unfold loadStep
      cases hdisk : alookup g disk with
      | none => exact habs g' (List.mem_cons_of_mem _ hg')
      | some sds =>
        show alookup g' (ains g (loadGray sds).1 acc.1.sequence_frames) = none
        rw [alookup_ains_ne hne]
        exact habs g' (List.mem_cons_of_mem _ hg')
    · unfold loadStep
      cases hdisk : alookup g disk with
      | none => exact hheld
      | some sds =>
        show ((ains g (loadGray sds).1 acc.1.sequence_frames).map
            (fun e => heldFramesGray e.2)).sum = acc.2 + (loadGray sds).2.2
        rw [sum_ains_none heldFramesGray g _ _ (habs g (List.mem_cons_self _ _))]
        have he : (acc.1.sequence_frames.map (fun e => heldFramesGray e.2)).sum = acc.2 :=
          hheld
        rw [he, loadGray_held sds (hd2 _ (alookup_mem hdisk))
              (hd3 _ (alookup_mem hdisk))]

/-- C9 (amended) — Eager loading: `load_sequence_frames` loads and binarizes
every discovered frame up front, and (absent duplicate numeric suffixes on
disk and in the configuration) the number of frame bitmaps held in memory
equals the `total_frames` count it returns — i.e. it grows with the disk
content and is not bounded by any fixed capacity.  `get_frame` is a pure
lookup into this store (it takes no disk argument and returns existing
entries only); no loading or eviction happens at `get_frame` time. -/
theorem eager_load_count (cfg : MaskConfig) (disk : Disk)
    (h1 : cfg.gray_values.Nodup)
    (h2 : ∀ e ∈ disk, (e.2.map SeqDir.seq_num).Nodup)
    (h3 : ∀ e ∈ disk, ∀ sd ∈ e.2, (sd.frame_files.map Prod.fst).Nodup) :
    ((MaskManager.init cfg).load_sequence_frames disk).1.heldFrames =
      ((MaskManager.init cfg).load_sequence_frames disk).2 :=
  foldl_loadStep_held disk h2 h3 cfg.gray_values (MaskManager.init cfg, 0) h1
    (fun _ _ => rfl) rfl

/-- C9 witness: on a two-frame disk, the store holds exactly the 2 frames the
loader reports. -/
theorem eager_load_count_witness :
    (cfg9.gray_values.Nodup ∧ (∀ e ∈ mkDisk 2, (e.2.map SeqDir.seq_num).Nodup) ∧
      (∀ e ∈ mkDisk 2, ∀ sd ∈ e.2, (sd.frame_files.map Prod.fst).Nodup)) ∧
    ((MaskManager.init cfg9).load_sequence_frames (mkDisk 2)).1.heldFrames =
      ((MaskManager.init cfg9).load_sequence_frames (mkDisk 2)).2 :=
  ⟨⟨by decide, by decide, by decide⟩,
   eager_load_count cfg9 (mkDisk 2) (by decide) (by decide) (by decide)⟩

theorem frameList_nodup (n : Nat) : ((frameList n).map Prod.fst).Nodup := by
  unfold frameList
  rw [List.map_map]
  have : (Prod.fst ∘ fun i => ((i + 1 : Nat), some whiteBM)) = fun i => i + 1 := rfl
  rw [this]
  exact (List.nodup_range n).map (fun a b => by omega)

theorem frameList_succ (n : Nat) :
    frameList (n + 1) = frameList n ++ [(n + 1, some whiteBM)] := by
  unfold frameList
  rw [List.range_succ, List.map_append]
  rfl

theorem loadFrames_frameList_cnt (n : Nat) : (loadFrames (frameList n)).2.2 = n := by
  induction n with
  | zero => rfl
  | succ k ih =>
    unfold loadFrames
    rw [frameList_succ, List.foldl_append]
    show (loadFrames (frameList k)).2.2 + 1 = k + 1
    rw [ih]

theorem mkDisk_held (n : Nat) :
    ((MaskManager.init cfg9).load_sequence_frames (mkDisk n)).1.heldFrames = n := by
  show (loadFrames (frameList n)).1.length + 0 + 0 = n
  rw [loadFrames_len _ (frameList_nodup n), loadFrames_frameList_cnt n]
  omega

/-- C9 counterexample: frames are not loaded on demand at `get_frame` time and
the store is not capacity-bounded — after `load_sequence_frames` on a disk
holding one sequence of 1000 frames, and before any `get_frame` call at all,
the store already holds all 1000 frame bitmaps (the held count equals the
disk's frame count, so no fixed capacity bounds it, and no insert ever
evicts). -/
theorem bounded_cache_counterexample :
    ((MaskManager.init cfg9).load_sequence_frames (mkDisk 1000)).1.heldFrames = 1000 :=
  mkDisk_held 1000
